import Mathlib

/-!
Verification of the image-processing CLI (`src/exercise/z_final_project/src/main.rs`).

Embedding conventions:
* `f32` arithmetic is idealised as exact arithmetic: over `ℝ` where the source
  uses the transcendental `sin`, and over `ℚ` where the source computation is a
  rational function of the inputs (the fractal generator and coordinate maps).
* Rust's float-to-`u8` `as` cast rounds toward zero and saturates to `[0, 255]`
  (NaN, which never occurs here, maps to 0); `rustCastU8` models exactly that.
* The `image`-crate buffer is modelled as a total pixel function together with
  its dimensions; `enumerate_pixels_mut` writes the loop body's value at every
  coordinate, so the resulting buffer is that pixel function.
* The external pixel operations (blur, brighten, crop, the three quarter-turn
  rotations, invert, grayscale) are parameters of the pipeline, collected in a
  `PixelOps` record, mirroring the narrow interface the source delegates to.
* Rust strings are modelled as `String`/`List Char`; `str::split(',')` is the
  structural `splitComma`, and `str::parse::<u32>` is `parseU32`.
-/

namespace ImageProc

/-- Color pixel with 8-bit red, green, blue channels (image::Rgb<u8>). -/
structure Rgb where
  r : ℕ
  g : ℕ
  b : ℕ
  deriving DecidableEq, Repr

/-- Raster image: dimensions plus the pixel value at each coordinate. -/
structure Image where
  width : ℕ
  height : ℕ
  pix : ℕ → ℕ → Rgb

/-- Truncation toward zero of a real or rational value, as an integer. -/
def truncTowardZero {α : Type} [LinearOrderedRing α] [FloorRing α] (v : α) : ℤ :=
  if 0 ≤ v then ⌊v⌋ else ⌈v⌉

/-- Rust `as u8` cast from a float value: round toward zero, saturating to
`[0, 255]`.  For `v < 0` the floor is negative and `Int.toNat` yields 0, and
for nonnegative `v` truncation toward zero is the floor, so this single
expression is the saturating cast. -/
def rustCastU8 {α : Type} [LinearOrderedRing α] [FloorRing α] (v : α) : ℕ :=
  (min 255 ⌊v⌋).toNat

/-- Modelled from the spec: truncation toward zero followed by saturation of
the result into `[0, 255]` (the amended reading of the spec's channel cast). -/
def specSatTrunc {α : Type} [LinearOrderedRing α] [FloorRing α] (v : α) : ℕ :=
  (min 255 (max 0 (truncTowardZero v))).toNat

/-- Modelled from the spec: truncation toward zero followed by wrapping to the
low 8 bits (two's-complement), the cast semantics the spec text asserts. -/
def truncWrapU8 {α : Type} [LinearOrderedRing α] [FloorRing α] (v : α) : ℕ :=
  (truncTowardZero v % 256).toNat

/-- The gradient generator `generate()`: an 800x800 image whose pixel at
`(x, y)` has channels `0.5 * sin(x*0.01) * 255`, `0.5 * sin(y*0.01) * 255`
and `0.5 * sin(x*0.01 + y*0.01) * 255`, each cast to `u8`. -/
noncomputable def generate : Image :=
  { width := 800
    height := 800
    pix := fun x y =>
      { r := rustCastU8 (0.5 * Real.sin ((x : ℝ) * 0.01) * 255)
        g := rustCastU8 (0.5 * Real.sin ((y : ℝ) * 0.01) * 255)
        b := rustCastU8 (0.5 * Real.sin ((x : ℝ) * 0.01 + (y : ℝ) * 0.01) * 255) } }

/-- Horizontal scale factor `3.0 / width` of the fractal coordinate map. -/
def scale_x : ℚ := 3 / 800

/-- Vertical scale factor `3.0 / height` of the fractal coordinate map. -/
def scale_y : ℚ := 3 / 800

/-- The fixed Julia constant `c = -0.4 + 0.6i` of `fractal()`. -/
def juliaC : ℚ × ℚ := (-0.4, 0.6)

/-- One step `z * z + c` of the escape-time iteration, on complex numbers
represented as real/imaginary pairs. -/
def juliaStep (z : ℚ × ℚ) : ℚ × ℚ :=
  (z.1 * z.1 - z.2 * z.2 + juliaC.1, z.1 * z.2 + z.2 * z.1 + juliaC.2)

/-- Squared complex magnitude; the source's escape test `z.norm() <= 2.0`
is equivalent to `normSq z <= 4`. -/
def normSq (z : ℚ × ℚ) : ℚ := z.1 * z.1 + z.2 * z.2

/-- Iterate of `juliaStep`, used to state the declarative escape count. -/
def zIter (z : ℚ × ℚ) : ℕ → ℚ × ℚ
  | 0 => z
  | n + 1 => juliaStep (zIter z n)

/-- The starting point `z0 = cx + cy*i` of the escape iteration for pixel
`(x, y)`: `cx = y * scale_x - 1.5`, `cy = x * scale_y - 1.5` (axis swap as in
the source). -/
def fractalZ0 (x y : ℕ) : ℚ × ℚ :=
  ((y : ℚ) * scale_x - 1.5, (x : ℚ) * scale_y - 1.5)

/-- The source's `while green < 255 && z.norm() <= 2.0` loop: repeatedly steps
`z` and increments `green`, returning the final `green`. -/
def escapeLoop (z : ℚ × ℚ) (green : ℕ) : ℕ :=
  if h : green < 255 ∧ normSq z ≤ 4 then escapeLoop (juliaStep z) (green + 1)
  else green
termination_by 255 - green
decreasing_by omega

/-- Modelled from the spec: the least `n` that either reaches the bound `m` or
at which the iterate has escaped (`|z| > 2`). `escapeSteps z 255` is the
declarative escape count of the spec. -/
def escapeSteps (z : ℚ × ℚ) (m : ℕ) : ℕ :=
  Nat.find (⟨m, Or.inl rfl⟩ : ∃ n, n = m ∨ 4 < normSq (zIter z n))

/-- Modelled from the spec: the number of iterations of `z ← z² + c` performed
before either `|z| > 2` holds or 255 iterations are reached, whichever first. -/
def escapeCountSpec (z : ℚ × ℚ) : ℕ := escapeSteps z 255

/-- The fractal generator `fractal()`: red/blue are `0.3 * x` and `0.3 * y`
cast to `u8`, green is the escape count of the Julia iteration started at the
mapped coordinates. -/
def fractal : Image :=
  { width := 800
    height := 800
    pix := fun x y =>
      { r := rustCastU8 ((0.3 : ℚ) * (x : ℚ))
        g := escapeLoop (fractalZ0 x y) 0
        b := rustCastU8 ((0.3 : ℚ) * (y : ℚ)) } }

/-- The narrow interface of external pixel operations the source delegates to
(the `image` crate): blur, brighten, crop, the three quarter-turn rotations,
invert and grayscale. The pipeline is verified for every instantiation. -/
structure PixelOps where
  blur : ℚ → Image → Image
  brighten : ℤ → Image → Image
  crop : ℕ → ℕ → ℕ → ℕ → Image → Image
  rotate90 : Image → Image
  rotate180 : Image → Image
  rotate270 : Image → Image
  invert : Image → Image
  grayscale : Image → Image

/-- The parsed command-line transform request (struct `Cli`, flags only). -/
structure Cli where
  blur : Option ℚ
  brighten : Option ℤ
  crop : Option (ℕ × ℕ × ℕ × ℕ)
  rotate : Option ℤ
  invert : Bool
  grayscale : Bool

/-- Source `blur`: delegate to the external blur. -/
def blur (ops : PixelOps) (img : Image) (sigma : ℚ) : Image := ops.blur sigma img

/-- Source `brighten`: delegate to the external brighten. -/
def brighten (ops : PixelOps) (img : Image) (value : ℤ) : Image :=
  ops.brighten value img

/-- Source `crop`: delegate to the external crop. -/
def crop (ops : PixelOps) (img : Image) (x y width height : ℕ) : Image :=
  ops.crop x y width height img

/-- Source `rotate`: only the literal values 90, 180, 270 rotate; any other
value returns the image unchanged. -/
def rotate (ops : PixelOps) (img : Image) (value : ℤ) : Image :=
  if value = 90 then ops.rotate90 img
  else if value = 180 then ops.rotate180 img
  else if value = 270 then ops.rotate270 img
  else img

/-- Source `invert`: delegate to the external invert. -/
def invert (ops : PixelOps) (img : Image) : Image := ops.invert img

/-- Source `grayscale`: delegate to the external grayscale. -/
def grayscale (ops : PixelOps) (img : Image) : Image := ops.grayscale img

/-- Source `process_image`: the sequential pipeline, each stage conditional on
its request field, in the fixed order blur, brighten, crop, rotate, invert,
grayscale. -/
def process_image (ops : PixelOps) (img : Image) (cli : Cli) : Image :=
  let img1 := match cli.blur with
    | some sigma => blur ops img sigma
    | none => img
  let img2 := match cli.brighten with
    | some value => brighten ops img1 value
    | none => img1
  let img3 := match cli.crop with
    | some (x, y, width, height) => crop ops img2 x y width height
    | none => img2
  let img4 := match cli.rotate with
    | some value => rotate ops img3 value
    | none => img3
  let img5 := if cli.invert then invert ops img4 else img4
  let img6 := if cli.grayscale then grayscale ops img5 else img5
  img6

/-- Modelled from the spec: pipeline stage 1, blur when sigma is present. -/
def stageBlur (ops : PixelOps) (cli : Cli) (img : Image) : Image :=
  match cli.blur with
  | some sigma => ops.blur sigma img
  | none => img

/-- Modelled from the spec: pipeline stage 2, brighten when delta is present. -/
def stageBrighten (ops : PixelOps) (cli : Cli) (img : Image) : Image :=
  match cli.brighten with
  | some value => ops.brighten value img
  | none => img

/-- Modelled from the spec: pipeline stage 3, crop when a rectangle is present. -/
def stageCrop (ops : PixelOps) (cli : Cli) (img : Image) : Image :=
  match cli.crop with
  | some (x, y, width, height) => ops.crop x y width height img
  | none => img

/-- Modelled from the spec: pipeline stage 4, rotate when an angle is present. -/
def stageRotate (ops : PixelOps) (cli : Cli) (img : Image) : Image :=
  match cli.rotate with
  | some value => rotate ops img value
  | none => img

/-- Modelled from the spec: pipeline stage 5, invert when the flag is set. -/
def stageInvert (ops : PixelOps) (cli : Cli) (img : Image) : Image :=
  if cli.invert then ops.invert img else img

/-- Modelled from the spec: pipeline stage 6, grayscale when the flag is set. -/
def stageGrayscale (ops : PixelOps) (cli : Cli) (img : Image) : Image :=
  if cli.grayscale then ops.grayscale img else img

/-- Modelled from the spec: the pipeline as the composition of the six stages
in the fixed order of section 4.3. -/
def applySpec (ops : PixelOps) (cli : Cli) (img : Image) : Image :=
  stageGrayscale ops cli
    (stageInvert ops cli
      (stageRotate ops cli
        (stageCrop ops cli
          (stageBrighten ops cli
            (stageBlur ops cli img)))))

/-- The empty transform request: no optional stage present, both flags false. -/
def emptyCli : Cli :=
  { blur := none, brighten := none, crop := none, rotate := none,
    invert := false, grayscale := false }

/-- Modelled from the spec: clockwise quarter-turn of the pixel grid, the
glossary's transpose/reversal reading of the external `rotate90`. -/
def rot90 (img : Image) : Image :=
  { width := img.height
    height := img.width
    pix := fun x y => img.pix y (img.height - 1 - x) }

/-- Modelled from the spec: half-turn of the pixel grid (external `rotate180`). -/
def rot180 (img : Image) : Image :=
  { width := img.width
    height := img.height
    pix := fun x y => img.pix (img.width - 1 - x) (img.height - 1 - y) }

/-- Modelled from the spec: counter-clockwise quarter-turn of the pixel grid
(external `rotate270`). -/
def rot270 (img : Image) : Image :=
  { width := img.height
    height := img.width
    pix := fun x y => img.pix (img.width - 1 - y) x }

/-- A concrete instantiation of the external operations, used to evaluate the
pipeline on concrete inputs: the quarter-turn rotations are the grid
permutations above, and the pointwise color operations are left as the
identity (no claim here depends on their pixel arithmetic). -/
def sampleOps : PixelOps :=
  { blur := fun _ img => img
    brighten := fun _ img => img
    crop := fun _ _ _ _ img => img
    rotate90 := rot90
    rotate180 := rot180
    rotate270 := rot270
    invert := fun img => img
    grayscale := fun img => img }

/-- A concrete 2x1 test image whose shape changes under a quarter-turn. -/
def testImg : Image :=
  { width := 2
    height := 1
    pix := fun _ _ => { r := 0, g := 0, b := 0 } }

/-- Rust `str::split(',')` on the characters of a string: splits at every
comma, keeping empty fields; an empty input yields one empty field. -/
def splitComma : List Char → List (List Char)
  | [] => [[]]
  | c :: rest =>
    if c = ',' then [] :: splitComma rest
    else
      match splitComma rest with
      | [] => [[c]]
      | p :: ps => (c :: p) :: ps

/-- Numeric value of a digit list, most significant digit first. -/
def digitsVal : List Char → ℕ :=
  List.foldl (fun acc c => acc * 10 + (c.toNat - 48)) 0

/-- Rust `str::parse::<u32>()` on a field: an optional leading plus sign
followed by one or more ASCII digits, whose value must fit in 32 bits. -/
def parseU32 (s : List Char) : Option ℕ :=
  let digits := match s with
    | c :: rest => if c = '+' then rest else s
    | [] => s
  if digits ≠ [] ∧ digits.all Char.isDigit ∧ digitsVal digits < 4294967296 then
    some (digitsVal digits)
  else none

/-- Tag for successful results of the crop parser. -/
def isOkE {α : Type} : Except String α → Bool
  | Except.ok _ => true
  | Except.error _ => false

/-- Source `parse_crop`: split the argument on commas, require exactly four
fields, and parse them in order as x, y, width, height, reporting the first
malformed field in the error message. -/
def parse_crop (s : String) : Except String (ℕ × ℕ × ℕ × ℕ) :=
  let parts := splitComma s.data
  if parts.length ≠ 4 then Except.error ("Invalid crop value: " ++ s)
  else
    match parseU32 (parts.getD 0 []) with
    | none => Except.error ("Invalid x value: " ++ String.mk (parts.getD 0 []))
    | some x =>
      match parseU32 (parts.getD 1 []) with
      | none => Except.error ("Invalid y value: " ++ String.mk (parts.getD 1 []))
      | some y =>
        match parseU32 (parts.getD 2 []) with
        | none =>
          Except.error ("Invalid width value: " ++ String.mk (parts.getD 2 []))
        | some width =>
          match parseU32 (parts.getD 3 []) with
          | none =>
            Except.error ("Invalid height value: " ++ String.mk (parts.getD 3 []))
          | some height => Except.ok (x, y, width, height)

/-- Claim C6: for every integer rotation angle other than the literal values
90, 180 and 270, `rotate` returns its input image unchanged. -/
theorem rotate_noop (ops : PixelOps) (img : Image) (v : ℤ)
    (h90 : v ≠ 90) (h180 : v ≠ 180) (h270 : v ≠ 270) :
    rotate ops img v = img := by
  simp [rotate, h90, h180, h270]

/-- Witness for C6: the spec's own example angle 45 leaves a concrete image
unchanged. -/
theorem rotate_noop_witness : rotate sampleOps testImg 45 = testImg :=
  rotate_noop sampleOps testImg 45 (by decide) (by decide) (by decide)

/-- Counterexample to claim C4 as stated: 450 is congruent to 90 mod 360, and
rotating by 90 does change the concrete test image, yet the rotate stage at
450 leaves the image untouched. -/
theorem rotate_mod360_cex :
    (450 : ℤ) % 360 = 90 ∧
    rotate sampleOps testImg 450 = testImg ∧
    rotate sampleOps testImg 90 ≠ testImg := by
  refine ⟨by decide, by norm_num [rotate], fun h => ?_⟩
  have hw := congrArg Image.width h
  simp [rotate, sampleOps, rot90, testImg] at hw

/-- Claim C4 (amended): exactly the literal angle values 90, 180 and 270
produce a rotation (delegating to the corresponding quarter-turn); every other
integer value, including other representatives of those classes mod 360,
leaves the image unchanged. -/
theorem rotate_literal_angles (ops : PixelOps) (img : Image) (v : ℤ) :
    (v ≠ 90 → v ≠ 180 → v ≠ 270 → rotate ops img v = img) ∧
    rotate ops img 90 = ops.rotate90 img ∧
    rotate ops img 180 = ops.rotate180 img ∧
    rotate ops img 270 = ops.rotate270 img := by
  refine ⟨fun h90 h180 h270 => by simp [rotate, h90, h180, h270], ?_, ?_, ?_⟩ <;>
    norm_num [rotate]

/-- Witness for the amended C4: angle 37 is a no-op on the concrete test image
and angle 90 delegates to the external quarter-turn there. -/
theorem rotate_literal_angles_witness :
    rotate sampleOps testImg 37 = testImg ∧
    rotate sampleOps testImg 90 = sampleOps.rotate90 testImg :=
  ⟨(rotate_literal_angles sampleOps testImg 37).1 (by decide) (by decide) (by decide),
   (rotate_literal_angles sampleOps testImg 90).2.1⟩

/-- Claim C5: the pipeline is the fixed-order composition of the six optional
stages (blur, brighten, crop, rotate, invert, grayscale), each applied exactly
when its request field is present or true; in particular the request with
brighten +10 and invert set yields invert applied after brighten, independent
of how the request was assembled. -/
theorem pipeline_fixed_order (ops : PixelOps) (img : Image) (cli : Cli) :
    process_image ops img cli = applySpec ops cli img ∧
    process_image ops img
      { blur := none, brighten := some 10, crop := none, rotate := none,
        invert := true, grayscale := false } =
      ops.invert (ops.brighten 10 img) := by
  constructor
  · rfl
  · rfl

/-- Claim C9: applying the pipeline with the empty transform request returns
the input image unchanged. -/
theorem process_image_empty (ops : PixelOps) (img : Image) :
    process_image ops img emptyCli = img := rfl

/-- Shifting the escape iteration by one step. -/
theorem zIter_shift (z : ℚ × ℚ) (n : ℕ) :
    zIter z (n + 1) = zIter (juliaStep z) n := by
  induction n with
  | zero => rfl
  | succ n ih =>
    show juliaStep (zIter z (n + 1)) = juliaStep (zIter (juliaStep z) n)
    rw [ih]

/-- A point already outside the escape radius contributes no steps. -/
theorem escapeSteps_of_escaped (z : ℚ × ℚ) (m : ℕ) (h : 4 < normSq z) :
    escapeSteps z m = 0 := by
  unfold escapeSteps
  exact (Nat.find_eq_zero _).mpr (Or.inr h)

/-- With the bound exhausted, no steps remain. -/
theorem escapeSteps_zero (z : ℚ × ℚ) : escapeSteps z 0 = 0 := by
  unfold escapeSteps
  exact (Nat.find_eq_zero _).mpr (Or.inl rfl)

/-- Unfolding one step of the declarative escape count. -/
theorem escapeSteps_succ (z : ℚ × ℚ) (m : ℕ) (h : ¬ 4 < normSq z) :
    escapeSteps z (m + 1) = escapeSteps (juliaStep z) m + 1 := by
  unfold escapeSteps
  have hle : Nat.find (⟨m, Or.inl rfl⟩ :
      ∃ n, n = m ∨ 4 < normSq (zIter (juliaStep z) n)) ≤ m :=
    Nat.find_min' _ (Or.inl rfl)
  have hspec := Nat.find_spec (⟨m, Or.inl rfl⟩ :
      ∃ n, n = m ∨ 4 < normSq (zIter (juliaStep z) n))
  have hmin : ∀ j, j < Nat.find (⟨m, Or.inl rfl⟩ :
      ∃ n, n = m ∨ 4 < normSq (zIter (juliaStep z) n)) →
      ¬ (j = m ∨ 4 < normSq (zIter (juliaStep z) j)) :=
    fun j hj => Nat.find_min _ hj
  apply (Nat.find_eq_iff _).mpr
  constructor
  · rcases hspec with h1 | h1
    · exact Or.inl (by omega)
    · exact Or.inr (by rw [zIter_shift]; exact h1)
  · intro n hn
    rintro (h1 | h2)
    · omega
    · match n, hn with
      | 0, _ => exact h h2
      | j + 1, hn =>
        have hj : j < Nat.find (⟨m, Or.inl rfl⟩ :
            ∃ n, n = m ∨ 4 < normSq (zIter (juliaStep z) n)) := by omega
        rw [zIter_shift] at h2
        exact hmin j hj (Or.inr h2)

/-- The source while loop computes `green` plus the declarative count with the
remaining iteration budget. -/
theorem escapeLoop_eq_steps :
    ∀ (m green : ℕ) (z : ℚ × ℚ), green + m = 255 →
      escapeLoop z green = green + escapeSteps z m := by
  intro m
  induction m with
  | zero =>
    intro green z hg
    rw [escapeLoop, dif_neg (by omega), escapeSteps_zero]
    omega
  | succ m ih =>
    intro green z hg
    by_cases hesc : 4 < normSq z
    · rw [escapeLoop, dif_neg (fun hc => absurd hc.2 (not_le.mpr hesc)),
        escapeSteps_of_escaped z _ hesc]
      omega
    · rw [escapeLoop, dif_pos ⟨by omega, le_of_not_lt hesc⟩,
        ih (green + 1) (juliaStep z) (by omega), escapeSteps_succ z m hesc]
      omega

/-- Claim C2: the green channel of each fractal pixel is the number of
iterations of `z ← z² + c` performed before either `|z| > 2` or 255
iterations are reached, whichever comes first, and it is capped at 255. -/
theorem fractal_green_escape (x y : Fin 800) :
    (fractal.pix (x : ℕ) (y : ℕ)).g = escapeCountSpec (fractalZ0 (x : ℕ) (y : ℕ)) ∧
    (fractal.pix (x : ℕ) (y : ℕ)).g ≤ 255 := by
  have h := escapeLoop_eq_steps 255 0 (fractalZ0 (x : ℕ) (y : ℕ)) (by omega)
  have hg : (fractal.pix (x : ℕ) (y : ℕ)).g
      = escapeLoop (fractalZ0 (x : ℕ) (y : ℕ)) 0 := rfl
  have hcap : escapeSteps (fractalZ0 (x : ℕ) (y : ℕ)) 255 ≤ 255 := by
    unfold escapeSteps
    exact Nat.find_min' _ (Or.inl rfl)
  constructor
  · rw [hg, h]; simp [escapeCountSpec]
  · rw [hg, h]; simpa using hcap

/-- Claim C3: the fractal generator maps pixel `(x, y)` to the complex point
with real part `y * (3/800) - 1.5` and imaginary part `x * (3/800) - 1.5`
(axes swapped), this is the starting point of the pixel's green-channel
iteration, and pixel `(0, 0)` maps to `(-1.5, -1.5)`. -/
theorem fractal_axis_swap (x y : Fin 800) :
    fractalZ0 (x : ℕ) (y : ℕ)
      = (((y : ℕ) : ℚ) * (3 / 800) - 1.5, ((x : ℕ) : ℚ) * (3 / 800) - 1.5) ∧
    (fractal.pix (x : ℕ) (y : ℕ)).g
      = escapeLoop (((y : ℕ) : ℚ) * (3 / 800) - 1.5, ((x : ℕ) : ℚ) * (3 / 800) - 1.5) 0 ∧
    fractalZ0 0 0 = (-1.5, -1.5) := by
  have h1 : fractalZ0 (x : ℕ) (y : ℕ)
      = (((y : ℕ) : ℚ) * (3 / 800) - 1.5, ((x : ℕ) : ℚ) * (3 / 800) - 1.5) := by
    simp [fractalZ0, scale_x, scale_y]
  refine ⟨h1, ?_, by norm_num [fractalZ0, scale_x, scale_y]⟩
  rw [show (fractal.pix (x : ℕ) (y : ℕ)).g
      = escapeLoop (fractalZ0 (x : ℕ) (y : ℕ)) 0 from rfl, h1]

/-- On `[0, 256)` the saturating Rust cast agrees with truncate-then-wrap. -/
theorem rustCastU8_eq_wrap_of_range {α : Type} [LinearOrderedRing α] [FloorRing α]
    {q : α} (h0 : 0 ≤ q) (h255 : q < 256) : rustCastU8 q = truncWrapU8 q := by
  unfold rustCastU8 truncWrapU8 truncTowardZero
  rw [if_pos h0]
  have hf0 : 0 ≤ ⌊q⌋ := Int.floor_nonneg.mpr h0
  have hf : ⌊q⌋ < 256 := Int.floor_lt.mpr (by exact_mod_cast h255)
  rw [min_eq_right (by omega), Int.emod_eq_of_lt hf0 hf]

/-- Claim C7: each fractal pixel's red channel is the 8-bit truncation of
`0.3 * x` and its blue channel the 8-bit truncation of `0.3 * y`, under the
claim's truncate-and-wrap cast semantics (the values stay below 256 on the
800-pixel domain, so wrapping never engages). -/
theorem fractal_red_blue_trunc (x y : Fin 800) :
    (fractal.pix (x : ℕ) (y : ℕ)).r = truncWrapU8 ((0.3 : ℚ) * ((x : ℕ) : ℚ)) ∧
    (fractal.pix (x : ℕ) (y : ℕ)).b = truncWrapU8 ((0.3 : ℚ) * ((y : ℕ) : ℚ)) := by
  have hx : ((x : ℕ) : ℚ) ≤ 799 := by
    exact_mod_cast Nat.cast_le.mpr (Nat.lt_succ_iff.mp x.isLt)
  have hy : ((y : ℕ) : ℚ) ≤ 799 := by
    exact_mod_cast Nat.cast_le.mpr (Nat.lt_succ_iff.mp y.isLt)
  constructor
  · exact rustCastU8_eq_wrap_of_range (by positivity) (by linarith)
  · exact rustCastU8_eq_wrap_of_range (by positivity) (by linarith)

/-- The Rust cast sends every negative value to 0 (saturation). -/
theorem rustCastU8_neg {α : Type} [LinearOrderedRing α] [FloorRing α]
    {v : α} (h : v < 0) : rustCastU8 v = 0 := by
  unfold rustCastU8
  have hf : ⌊v⌋ < 0 := Int.floor_lt.mpr (by exact_mod_cast h)
  rw [min_eq_right (by omega)]
  omega

/-- The Rust cast agrees everywhere with truncation toward zero followed by
saturation into `[0, 255]`. -/
theorem rustCastU8_eq_satTrunc {α : Type} [LinearOrderedRing α] [FloorRing α]
    (v : α) : rustCastU8 v = specSatTrunc v := by
  unfold rustCastU8 specSatTrunc truncTowardZero
  by_cases h : 0 ≤ v
  · rw [if_pos h, max_eq_right (Int.floor_nonneg.mpr h)]
  · rw [if_neg h]
    push_neg at h
    have hf : ⌊v⌋ < 0 := Int.floor_lt.mpr (by exact_mod_cast h)
    have hc : ⌈v⌉ ≤ 0 := Int.ceil_le.mpr (by exact_mod_cast h.le)
    rw [min_eq_right (by omega), max_eq_left hc]
    omega

/-- A value at most 127.5 casts to a channel of at most 127. -/
theorem rustCastU8_le127 {v : ℝ} (h : v ≤ 127.5) : rustCastU8 v ≤ 127 := by
  unfold rustCastU8
  have hf : ⌊v⌋ < 128 := Int.floor_lt.mpr (by push_cast; linarith)
  omega

/-- Numeric bound: `sin 4 < -3/5`, needed at the pixel column 400 where the
gradient's red sinusoid is clearly negative. -/
theorem sin_four_lt : Real.sin 4 < -(3 / 5) := by
  have hπu : Real.pi < 3.15 := Real.pi_lt_d2
  have hπl : 3.14 < Real.pi := Real.pi_gt_d2
  have h4 : Real.sin 4 = -Real.sin (4 - Real.pi) := by
    nth_rewrite 1 [show (4 : ℝ) = (4 - Real.pi) + Real.pi by ring]
    rw [Real.sin_add_pi]
  have hs0 : 0 < 4 - Real.pi := by linarith
  have hs1 : 4 - Real.pi ≤ 1 := by linarith
  have hcube := Real.sin_gt_sub_cube hs0 hs1
  have hsu : 4 - Real.pi ≤ 0.86 := by linarith
  have h3 : (4 - Real.pi) ^ 3 ≤ (0.86 : ℝ) ^ 3 := by
    gcongr
  have hb : (3 / 5 : ℝ) < (4 - Real.pi) - (4 - Real.pi) ^ 3 / 4 := by
    nlinarith
  rw [h4]
  linarith

/-- Counterexample to claim C1 as stated: at pixel `(400, 0)` the red sinusoid
value `0.5 * sin 4 * 255` is about `-96.5`; the program's cast saturates it to
0, while the claim's truncate-and-wrap semantics yields a nonzero byte. -/
theorem generate_cast_wrap_cex :
    (generate.pix 400 0).r = 0 ∧
    truncWrapU8 (0.5 * Real.sin (((400 : ℕ) : ℝ) * 0.01) * 255) ≠ 0 := by
  have harg : ((400 : ℕ) : ℝ) * 0.01 = 4 := by norm_num
  have hsin_lt := sin_four_lt
  have hsin_ge : -1 ≤ Real.sin 4 := Real.neg_one_le_sin 4
  have hv4 : 0.5 * Real.sin (((400 : ℕ) : ℝ) * 0.01) * 255
      = Real.sin 4 * 127.5 := by rw [harg]; ring
  have hv_neg : 0.5 * Real.sin (((400 : ℕ) : ℝ) * 0.01) * 255 < 0 := by
    rw [hv4]; nlinarith
  constructor
  · show rustCastU8 (0.5 * Real.sin (((400 : ℕ) : ℝ) * 0.01) * 255) = 0
    exact rustCastU8_neg hv_neg
  · rw [hv4] at hv_neg ⊢
    have hub : Real.sin 4 * 127.5 ≤ -76 := by nlinarith
    have hlb : (-128 : ℝ) ≤ Real.sin 4 * 127.5 := by nlinarith
    unfold truncWrapU8 truncTowardZero
    rw [if_neg (not_le.mpr hv_neg)]
    have hcu : ⌈Real.sin 4 * 127.5⌉ ≤ -76 :=
      Int.ceil_le.mpr (by exact_mod_cast hub)
    have hcl : (-128 : ℤ) ≤ ⌈Real.sin 4 * 127.5⌉ := by
      have hle := Int.le_ceil (Real.sin 4 * 127.5)
      exact_mod_cast le_trans hlb hle
    omega

/-- Claim C1 (amended): each gradient pixel's channels are the spec's sinusoid
formulas truncated toward zero and then saturated into `[0, 255]` (Rust float
casts saturate, so negative values give 0 rather than wrapping). -/
theorem generate_pixel_formula (x y : Fin 800) :
    (generate.pix (x : ℕ) (y : ℕ)).r
      = specSatTrunc (0.5 * Real.sin (((x : ℕ) : ℝ) * 0.01) * 255) ∧
    (generate.pix (x : ℕ) (y : ℕ)).g
      = specSatTrunc (0.5 * Real.sin (((y : ℕ) : ℝ) * 0.01) * 255) ∧
    (generate.pix (x : ℕ) (y : ℕ)).b
      = specSatTrunc (0.5 * Real.sin ((((x : ℕ) : ℝ) + ((y : ℕ) : ℝ)) * 0.01) * 255) := by
  refine ⟨rustCastU8_eq_satTrunc _, rustCastU8_eq_satTrunc _, ?_⟩
  show rustCastU8 (0.5 * Real.sin (((x : ℕ) : ℝ) * 0.01 + ((y : ℕ) : ℝ) * 0.01) * 255) = _
  rw [show ((x : ℕ) : ℝ) * 0.01 + ((y : ℕ) : ℝ) * 0.01
      = (((x : ℕ) : ℝ) + ((y : ℕ) : ℝ)) * 0.01 by ring]
  exact rustCastU8_eq_satTrunc _

/-- Claim C10: every channel of every gradient pixel lies in `[0, 127]`
(the channel type is a natural number, so nonnegativity is structural), and
the cast sends every negative channel value to 0. -/
theorem generate_channel_bounds :
    (∀ x y : Fin 800,
      (generate.pix (x : ℕ) (y : ℕ)).r ≤ 127 ∧
      (generate.pix (x : ℕ) (y : ℕ)).g ≤ 127 ∧
      (generate.pix (x : ℕ) (y : ℕ)).b ≤ 127) ∧
    (∀ v : ℝ, v < 0 → rustCastU8 v = 0) := by
  constructor
  · intro x y
    refine ⟨rustCastU8_le127 ?_, rustCastU8_le127 ?_, rustCastU8_le127 ?_⟩
    · linarith [Real.sin_le_one (((x : ℕ) : ℝ) * 0.01)]
    · linarith [Real.sin_le_one (((y : ℕ) : ℝ) * 0.01)]
    · linarith [Real.sin_le_one (((x : ℕ) : ℝ) * 0.01 + ((y : ℕ) : ℝ) * 0.01)]
  · exact fun v hv => rustCastU8_neg hv

/-- Witness for C10: the red channel of pixel `(3, 5)` is within `[0, 127]`,
and the cast of the concrete negative value `-1` is 0. -/
theorem generate_channel_bounds_witness :
    (generate.pix ((3 : Fin 800) : ℕ) ((5 : Fin 800) : ℕ)).r ≤ 127 ∧
    rustCastU8 (-1 : ℝ) = 0 :=
  ⟨(generate_channel_bounds.1 3 5).1,
   generate_channel_bounds.2 (-1) (by norm_num)⟩

/-- A list of length four is a four-element literal. -/
theorem list_length_eq_four {α : Type} {l : List α} (h : l.length = 4) :
    ∃ a b c d, l = [a, b, c, d] := by
  rcases l with _ | ⟨a, l⟩
  · simp at h
  rcases l with _ | ⟨b, l⟩
  · simp at h
  rcases l with _ | ⟨c, l⟩
  · simp at h
  rcases l with _ | ⟨d, l⟩
  · simp at h
  rcases l with _ | ⟨e, l⟩
  · exact ⟨a, b, c, d, rfl⟩
  · simp at h

/-- Claim C8: `parse_crop` succeeds exactly when the argument splits into four
comma-separated fields that each parse as a `u32`; on success it returns those
four parsed values in order, and on failure the error message reports either
the malformed whole value (wrong field count) or the first malformed field. -/
theorem parse_crop_spec (s : String) :
    (isOkE (parse_crop s) = true ↔
      (splitComma s.data).length = 4 ∧
        ∀ p ∈ splitComma s.data, (parseU32 p).isSome = true) ∧
    (∀ x y w h, parse_crop s = Except.ok (x, y, w, h) →
      (splitComma s.data).map parseU32 = [some x, some y, some w, some h]) ∧
    (∀ e, parse_crop s = Except.error e →
      ((splitComma s.data).length ≠ 4 ∧ e = "Invalid crop value: " ++ s) ∨
      ∃ p ∈ splitComma s.data, parseU32 p = none ∧
        (e = "Invalid x value: " ++ String.mk p ∨
         e = "Invalid y value: " ++ String.mk p ∨
         e = "Invalid width value: " ++ String.mk p ∨
         e = "Invalid height value: " ++ String.mk p)) := by
  by_cases hlen : (splitComma s.data).length = 4
  case neg =>
    have hpc : parse_crop s = Except.error ("Invalid crop value: " ++ s) := by
      unfold parse_crop
      rw [if_pos hlen]
    refine ⟨?_, ?_, ?_⟩
    · simp [hpc, isOkE, hlen]
    · intro x y w h hok
      rw [hpc] at hok
      exact absurd hok (by simp)
    · intro e he
      rw [hpc] at he
      exact Or.inl ⟨hlen, by simpa using he.symm⟩
  case pos =>
    obtain ⟨a, b, c, d, hparts⟩ := list_length_eq_four hlen
    rcases hA : parseU32 a with _ | xa
    · refine ⟨?_, ?_, ?_⟩
      · constructor
        · intro hok
          simp [parse_crop, hparts, hA, isOkE] at hok
        · rintro ⟨-, hall⟩
          have := hall a (by simp [hparts])
          simp [hA] at this
      · intro x y w h hok
        simp [parse_crop, hparts, hA] at hok
      · intro e he
        simp [parse_crop, hparts, hA] at he
        exact Or.inr ⟨a, by simp [hparts], hA, Or.inl he.symm⟩
    rcases hB : parseU32 b with _ | xb
    · refine ⟨?_, ?_, ?_⟩
      · constructor
        · intro hok
          simp [parse_crop, hparts, hA, hB, isOkE] at hok
        · rintro ⟨-, hall⟩
          have := hall b (by simp [hparts])
          simp [hB] at this
      · intro x y w h hok
        simp [parse_crop, hparts, hA, hB] at hok
      · intro e he
        simp [parse_crop, hparts, hA, hB] at he
        exact Or.inr ⟨b, by simp [hparts], hB, Or.inr (Or.inl he.symm)⟩
    rcases hC : parseU32 c with _ | xc
    · refine ⟨?_, ?_, ?_⟩
      · constructor
        · intro hok
          simp [parse_crop, hparts, hA, hB, hC, isOkE] at hok
        · rintro ⟨-, hall⟩
          have := hall c (by simp [hparts])
          simp [hC] at this
      · intro x y w h hok
        simp [parse_crop, hparts, hA, hB, hC] at hok
      · intro e he
        simp [parse_crop, hparts, hA, hB, hC] at he
        exact Or.inr ⟨c, by simp [hparts], hC, Or.inr (Or.inr (Or.inl he.symm))⟩
    rcases hD : parseU32 d with _ | xd
    · refine ⟨?_, ?_, ?_⟩
      · constructor
        · intro hok
          simp [parse_crop, hparts, hA, hB, hC, hD, isOkE] at hok
        · rintro ⟨-, hall⟩
          have := hall d (by simp [hparts])
          simp [hD] at this
      · intro x y w h hok
        simp [parse_crop, hparts, hA, hB, hC, hD] at hok
      · intro e he
        simp [parse_crop, hparts, hA, hB, hC, hD] at he
        exact Or.inr ⟨d, by simp [hparts], hD,
          Or.inr (Or.inr (Or.inr he.symm))⟩
    refine ⟨?_, ?_, ?_⟩
    · constructor
      · intro _
        refine ⟨hlen, ?_⟩
        intro p hp
        rw [hparts] at hp
        simp only [List.mem_cons, List.not_mem_nil, or_false] at hp
        rcases hp with rfl | rfl | rfl | rfl <;> simp [hA, hB, hC, hD]
      · intro _
        simp [parse_crop, hparts, hA, hB, hC, hD, isOkE]
    · intro x y w h hok
      simp [parse_crop, hparts, hA, hB, hC, hD] at hok
      obtain ⟨rfl, rfl, rfl, rfl⟩ := hok
      simp [hparts, hA, hB, hC, hD]
    · intro e he
      simp [parse_crop, hparts, hA, hB, hC, hD] at he

/-- Witness for C8: a well-formed crop string parses successfully and a string
with a non-numeric field fails. -/
theorem parse_crop_spec_witness :
    isOkE (parse_crop ("10,20,30,40")) = true ∧
    isOkE (parse_crop ("10,zz,30,40")) = false := by
  constructor
  · exact (parse_crop_spec ("10,20,30,40")).1.mpr (by decide)
  · rw [Bool.eq_false_iff]
    intro htrue
    exact absurd ((parse_crop_spec ("10,zz,30,40")).1.mp htrue) (by decide)

end ImageProc
